import Mathlib

/-!
# MusicVisualizer: shallow embedding and verification

Shallow embedding of the audio-analysis and animation-state core of the
MusicVisualizer repository (`AudioProcessor.py`, `Visualizer.py`).

Modelling conventions:
* Python floats are modelled by `ℚ`.  Where IEEE NaN behaviour is load-bearing
  (numpy elementwise division, `np.mean` of an empty array) we use the
  NaN-tracking type `PF` below; NaN compares false under `<` and `>`, exactly
  as IEEE NaN does in Python.
* Python `int(x)` (truncation toward zero) is `pyTrunc`; Python `x % m` on
  floats (result has the sign of the divisor) is `pyMod`.
* Library calls that the repository treats as black boxes (numpy/librosa STFT
  magnitudes, `np.std`, `math.sin`/`math.cos`, `random.*`) enter the model as
  explicit functional parameters, bundled in `Env`; theorems quantify over
  them and witnesses instantiate them concretely.
* Rendering calls (pygame drawing) have no effect on the modelled state and
  are omitted; rendering-only record fields (colours, sizes) are omitted from
  the particle/shockwave records for the same reason.
-/

/-- A Python/IEEE float value that is either NaN or a finite rational.
NaN propagates through arithmetic and makes every `<`/`>` comparison false. -/
inductive PF where
  | nan : PF
  | fin : ℚ → PF
deriving DecidableEq

namespace PF

def add : PF → PF → PF
  | fin a, fin b => fin (a + b)
  | _, _ => nan

def sub : PF → PF → PF
  | fin a, fin b => fin (a - b)
  | _, _ => nan

def mul : PF → PF → PF
  | fin a, fin b => fin (a * b)
  | _, _ => nan

/-- numpy elementwise division: finite / 0 is NaN (0/0) or ±Inf; in this
development the only zero-divisor case that arises is 0/0, which is NaN, so
division by zero uniformly yields `nan`. -/
def div : PF → PF → PF
  | fin a, fin b => if b = 0 then nan else fin (a / b)
  | _, _ => nan

/-- `a > q` for a float `a` and a finite literal `q`: false when `a` is NaN. -/
def gtQ : PF → ℚ → Bool
  | nan, _ => false
  | fin a, q => decide (q < a)

def isFin : PF → Bool
  | nan => false
  | fin _ => true

end PF

/-- `np.mean` of a list of finite floats: NaN on the empty list. -/
def npMeanPF (l : List ℚ) : PF :=
  if l = [] then PF.nan else PF.fin (l.sum / l.length)

/-- Mean of a nonempty list of rationals (`np.mean`); callers guard emptiness. -/
def npMean (l : List ℚ) : ℚ := l.sum / l.length

/-- Python `int(x)`: truncation toward zero. -/
def pyTrunc (q : ℚ) : ℤ := if 0 ≤ q then ⌊q⌋ else ⌈q⌉

/-- Python float modulo `a % m` for `m > 0`: `a - m*⌊a/m⌋`, in `[0, m)`. -/
def pyMod (a m : ℚ) : ℚ := a - m * ⌊a / m⌋

/-!
## AudioProcessor (src/AudioProcessor.py)

State: the mono audio buffer (`None` when absent) and the read cursor.
`chunk_size` and `hop_length` are the constants set in `__init__`.
-/

structure AudioProcessor where
  audio_data : Option (List ℚ)
  current_position : ℕ
deriving DecidableEq

namespace AudioProcessor

def chunk_size : ℕ := 2048

def hop_length : ℕ := 512

/-- `get_waveform`: returns the chunk `audio_data[pos : min(pos+2048, len)]`
and advances the cursor by 512, wrapping to 0 when it reaches or passes the
end.  Returns `none` when the cursor is at/past the end (which, from the
initial state, happens only for an empty buffer) and, via the caught
`TypeError`, when the buffer is absent. -/
def get_waveform (ap : AudioProcessor) : Option (List ℚ) × AudioProcessor :=
  match ap.audio_data with
  | none => (none, ap)
  | some data =>
    if ap.current_position ≥ data.length then
      (none, ap)
    else
      let end_pos := min (ap.current_position + chunk_size) data.length
      let chunk := (data.drop ap.current_position).take (end_pos - ap.current_position)
      let p := ap.current_position + hop_length
      let p := if p ≥ data.length then 0 else p
      (some chunk, { ap with current_position := p })

/-- `get_spectrum`, parameterised by the pure spectral analysis `analyze`
applied to the fetched chunk (steps (2)–(5) of the pipeline; instantiated
with the full NaN-tracking pipeline `spectrumOfChunk` in the spectral
section below).  Structure from the source: fetch a chunk via
`get_waveform`, return `none` if that returned `none`, else analyse it. -/
def get_spectrumA {α : Type} (analyze : List ℚ → α) (ap : AudioProcessor) :
    Option α × AudioProcessor :=
  match get_waveform ap with
  | (none, ap1) => (none, ap1)
  | (some chunk, ap1) => (some (analyze chunk), ap1)

end AudioProcessor

example :
    (AudioProcessor.get_waveform ⟨some [1, 2, 3], 0⟩).1 = some [1, 2, 3] := by
  decide

example :
    (AudioProcessor.get_waveform ⟨some [], 0⟩).1 = none := by
  decide

/-!
## Spectral analysis (`AudioProcessor.get_spectrum`, steps after the fetch)

The magnitude STFT `S = np.abs(librosa.stft(chunk, n_fft=2048, hop_length=512))`
is a library call; it enters the model as a parameter
`stftMag : List ℚ → List (List ℚ)` producing the magnitude matrix
(1025 = 2048/2 + 1 rows, one column per STFT frame; all entries nonnegative,
and the zero chunk maps to the all-zero matrix since the transform is linear).
`log10` inside `librosa.amplitude_to_db` likewise enters as a parameter
`lg : ℚ → ℚ`; no theorem below depends on its values.
-/

/-- Fold a binary operation over every entry of a matrix, row by row. -/
def matFold (f : ℚ → ℚ → ℚ) (x : ℚ) (S : List (List ℚ)) : ℚ :=
  S.foldl (fun a row => row.foldl f a) x

/-- `np.max` over a nonempty matrix, seeded with the first entry so the
result is an attained entry. -/
def npMax (S : List (List ℚ)) : ℚ :=
  matFold max (((S.headD []).headD 0)) S

/-- `np.min` over a nonempty matrix, seeded with the first entry. -/
def npMin (S : List (List ℚ)) : ℚ :=
  matFold min (((S.headD []).headD 0)) S

/-- `librosa.amplitude_to_db(S, ref=np.max)` with the library defaults
`amin = 1e-5`, `top_db = 80`: squares magnitudes, takes `10*log10` of the
`amin²`-clipped power relative to the `amin²`-clipped squared global maximum,
then clamps from below at (global max of the result) − 80. -/
def amplitude_to_db (lg : ℚ → ℚ) (S : List (List ℚ)) : List (List ℚ) :=
  let M := npMax S
  let amin2 : ℚ := 1 / 10 ^ 10
  let pre := S.map (List.map (fun x =>
    10 * lg (max amin2 (x ^ 2)) - 10 * lg (max amin2 (M ^ 2))))
  let mx := npMax pre
  pre.map (List.map (fun x => max x (mx - 80)))

/-- One entry of `S_norm = (S_db - S_db.min()) / (S_db.max() - S_db.min())`:
NaN when the denominator is zero (numpy 0/0). -/
def normEntry (mn mx x : ℚ) : PF :=
  PF.div (PF.fin (x - mn)) (PF.fin (mx - mn))

/-- Mean of one row of floats (`np.mean(S_norm, axis=1)` acts per row);
NaN when the row is empty or contains a NaN. -/
def rowMeanPF (row : List PF) : PF :=
  if row = [] then PF.nan
  else PF.div (row.foldl PF.add (PF.fin 0)) (PF.fin row.length)

/-- `np.interp(x, np.arange(n), ys)` for the sample points `0, 1, …, n-1`:
clamps below 0 and above `n-1`, linearly interpolates in between.  NaN
values propagate. -/
def npInterp (ys : List PF) (x : ℚ) : PF :=
  if x ≤ 0 then ys.headD PF.nan
  else if (ys.length : ℚ) - 1 ≤ x then ys.getLastD PF.nan
  else
    let i := (⌊x⌋).toNat
    let w := x - (i : ℚ)
    PF.add (ys.getD i PF.nan)
      (PF.mul (PF.sub (ys.getD (i + 1) PF.nan) (ys.getD i PF.nan)) (PF.fin w))

/-- The pure spectral pipeline applied to a fetched chunk: dB conversion,
min-max normalisation (unguarded division, as in the source), mean across
the time axis, and — when the natural bin count exceeds 128 — resampling via
`np.interp(np.linspace(0, len, 128), np.arange(len), spectrum)` to exactly
128 bins. -/
def spectrumOfChunk (stftMag : List ℚ → List (List ℚ)) (lg : ℚ → ℚ)
    (chunk : List ℚ) : List PF :=
  let S := stftMag chunk
  let S_db := amplitude_to_db lg S
  let mn := npMin S_db
  let mx := npMax S_db
  let S_norm := S_db.map (List.map (normEntry mn mx))
  let spectrum := S_norm.map rowMeanPF
  if 128 < spectrum.length then
    (List.range 128).map
      (fun i : ℕ => npInterp spectrum ((spectrum.length : ℚ) * (i : ℚ) / 127))
  else spectrum

/-- `AudioProcessor.get_spectrum` with the full spectral pipeline. -/
def AudioProcessor.get_spectrumPF (stftMag : List ℚ → List (List ℚ))
    (lg : ℚ → ℚ) (ap : AudioProcessor) : Option (List PF) × AudioProcessor :=
  AudioProcessor.get_spectrumA (spectrumOfChunk stftMag lg) ap

/-!
## Visualizer state (src/Visualizer.py)

`Env` packages the external library calls the Visualizer makes:
`random.randint`, `random.uniform`, `random.random`, `math.cos`, `math.sin`,
the float value `2π` used for spawn angles, and `np.std` (used only by the
colour mapper).  Theorems quantify over an arbitrary `Env`.
-/

structure Env where
  rint : ℕ → ℕ → ℕ
  runi : ℚ → ℚ → ℚ
  rand : ℚ
  cosQ : ℚ → ℚ
  sinQ : ℚ → ℚ
  twoPi : ℚ
  stdQ : List ℚ → ℚ

/-- A deterministic environment usable as a concrete witness instance. -/
def env0 : Env :=
  { rint := fun a _ => a
    runi := fun a _ => a
    rand := 0
    cosQ := fun _ => 1
    sinQ := fun _ => 0
    twoPi := 44 / 7
    stdQ := fun _ => 0 }

inductive PKind where
  | normal
  | starburst
  | orbit
  | comet
deriving DecidableEq

/-- One particle.  The Python dicts carry kind-dependent fields; here every
field is present and kinds simply ignore the ones they do not use (orbit
particles have no `x`/`dx`, linear particles have no `radius`/`speed`).
The rendering-only fields `color` and `size` are omitted: no state
transition reads them. -/
structure Particle where
  kind : PKind
  x : ℚ
  y : ℚ
  dx : ℚ
  dy : ℚ
  angle : ℚ
  radius : ℚ
  speed : ℚ
  life : ℚ
  trail : List (ℚ × ℚ)
deriving DecidableEq

/-- One shockwave; the rendering-only `color` field is omitted. -/
structure Shockwave where
  radius : ℚ
  max_radius : ℤ
  alpha : ℚ
  width : ℤ
deriving DecidableEq

structure Visualizer where
  ap : AudioProcessor
  screen_width : ℕ
  screen_height : ℕ
  time : ℚ
  particles : List Particle
  last_beat_time : ℚ
  prev_amp : ℚ
  beat_threshold : ℚ
  beat_cooldown : ℚ
  shockwaves : List Shockwave
  prev_bass_energy : ℚ
  drop_threshold : ℚ
  last_drop_time : ℚ
  drop_cooldown : ℚ
  beat_scale : ℚ
  clap_flatten_frames : ℤ
  clap_flatten_total : ℤ
  prev_treble_energy : ℚ
deriving DecidableEq

namespace Visualizer

/-- The eight-entry HSV palette from `__init__`; only its length is ever
read by the state logic (`get_palette_color` uses `len(self.palette)`). -/
def palette : List (ℚ × ℚ × ℚ) :=
  [(85/100, 1, 1), (55/100, 1, 1), (33/100, 1, 1), (13/100, 1, 1),
   (75/100, 6/10, 1), (55/100, 4/10, 1), (33/100, 4/10, 1), (13/100, 4/10, 1)]

/-- `Visualizer.__init__`.  `prev_treble_energy` is created lazily in the
source (`hasattr` check in `detect_treble_burst`, initialised to 0); here it
is a field initialised to 0, which is observationally identical. -/
def init (ap : AudioProcessor) (w h : ℕ) : Visualizer :=
  { ap := ap
    screen_width := w
    screen_height := h
    time := 0
    particles := []
    last_beat_time := 0
    prev_amp := 0
    beat_threshold := 18 / 100
    beat_cooldown := 18 / 100
    shockwaves := []
    prev_bass_energy := 0
    drop_threshold := 32 / 100
    last_drop_time := 0
    drop_cooldown := 7 / 10
    beat_scale := 1
    clap_flatten_frames := 0
    clap_flatten_total := 0
    prev_treble_energy := 0 }

def center_x (v : Visualizer) : ℕ := v.screen_width / 2

def center_y (v : Visualizer) : ℕ := v.screen_height / 2

/-- Bass sub-band energy as computed inside `detect_beat` and
`detect_bass_drop`: mean of `spectrum[:max(1, int(len*0.10))]`, 0 for an
absent or empty spectrum. -/
def bassEnergyOf (spectrum : Option (List ℚ)) : ℚ :=
  match spectrum with
  | none => 0
  | some l =>
    if l.length = 0 then 0
    else npMean (l.take (max 1 (pyTrunc ((l.length : ℚ) * (10 / 100))).toNat))

/-- `detect_beat(amp, dt, spectrum)`.  The `amp` and `dt` parameters are
accepted and ignored, exactly as in the source. -/
def detect_beat (v : Visualizer) (amp dt : ℚ) (spectrum : Option (List ℚ)) :
    Bool × Visualizer :=
  let _ := amp
  let _ := dt
  let bass_energy := bassEnergyOf spectrum
  if v.beat_threshold < bass_energy - v.prev_amp ∧
      v.beat_cooldown < v.time - v.last_beat_time then
    (true, { v with last_beat_time := v.time, prev_amp := bass_energy })
  else
    (false, { v with prev_amp := bass_energy })

/-- `detect_bass_drop(spectrum)`.  The source computes
`len(spectrum)` on its first line, before any `None` check, so an absent
spectrum raises `TypeError`; this is modelled by `Except.error`. -/
def detect_bass_drop (v : Visualizer) (spectrum : Option (List ℚ)) :
    Except String ((Bool × ℚ) × Visualizer) :=
  match spectrum with
  | none => .error "TypeError: object of type NoneType has no len()"
  | some l =>
    let bass_energy := bassEnergyOf (some l)
    if v.drop_threshold < bass_energy - v.prev_bass_energy ∧
        v.drop_cooldown < v.time - v.last_drop_time then
      .ok ((true, bass_energy),
        { v with last_drop_time := v.time, prev_bass_energy := bass_energy })
    else
      .ok ((false, bass_energy), { v with prev_bass_energy := bass_energy })

/-- `detect_treble_burst(spectrum)`: guarded on absent/empty spectrum
(returns false without touching state); otherwise compares the mean of
`spectrum[int(len*0.8):]` against the previous value, threshold 0.22, and
always records the new energy. -/
def detect_treble_burst (v : Visualizer) (spectrum : Option (List ℚ)) :
    Bool × Visualizer :=
  match spectrum with
  | none => (false, v)
  | some l =>
    if l.length = 0 then (false, v)
    else
      let treble_energy :=
        npMean (l.drop (pyTrunc ((l.length : ℚ) * (8 / 10))).toNat)
      (decide ((22 : ℚ) / 100 < treble_energy - v.prev_treble_energy),
        { v with prev_treble_energy := treble_energy })

/-- `detect_clap(waveform, spectrum)`: false when either input is `None`;
otherwise `np.abs(waveform).mean() > 0.10 and np.mean(spectrum[int(n*0.7):]) > 0.35`,
where the numpy mean of an empty array is NaN and NaN comparisons are false. -/
def detect_clap (waveform spectrum : Option (List ℚ)) : Bool :=
  match waveform, spectrum with
  | some w, some sp =>
    let amp := npMeanPF (w.map (fun x => |x|))
    let high := npMeanPF (sp.drop (pyTrunc ((sp.length : ℚ) * (7 / 10))).toNat)
    amp.gtQ (10 / 100) && high.gtQ (35 / 100)
  | _, _ => false

/-- The clap-countdown step in `update`: a clap resets both counters to 12;
otherwise a positive countdown decrements by one. -/
def clap_countdown (v : Visualizer) (clap : Bool) : Visualizer :=
  if clap then { v with clap_flatten_frames := 12, clap_flatten_total := 12 }
  else if 0 < v.clap_flatten_frames then
    { v with clap_flatten_frames := v.clap_flatten_frames - 1 }
  else v

/-- `trigger_shockwave(bass_energy, amp, spectrum)`: appends a shockwave with
radius 80, `max_radius = int(min(w,h)*0.7)`, alpha 180 and stroke width
`16 + int(bass_energy*24)`.  The `amp`/`spectrum` arguments only choose the
rendering colour and are omitted with it. -/
def trigger_shockwave (v : Visualizer) (bass_energy : ℚ) : Visualizer :=
  { v with shockwaves := v.shockwaves ++
      [{ radius := 80
         max_radius := pyTrunc ((min v.screen_width v.screen_height : ℚ) * (7 / 10))
         alpha := 180
         width := 16 + pyTrunc (bass_energy * 24) }] }

/-- One integration step of a shockwave (`update_shockwaves` body). -/
def stepShockwave (dt : ℚ) (s : Shockwave) : Shockwave :=
  { s with
    radius := s.radius + 18 * dt * 60
    alpha := s.alpha * (93 / 100)
    width := max 2 (pyTrunc ((s.width : ℚ) * (97 / 100))) }

/-- `update_shockwaves(dt)`: integrate every shockwave, then remove those
with `radius > max_radius or alpha < 8` (drawing the survivors). -/
def update_shockwaves (dt : ℚ) (l : List Shockwave) : List Shockwave :=
  (l.map (stepShockwave dt)).filter
    (fun s => !(decide ((s.max_radius : ℚ) < s.radius) || decide (s.alpha < 8)))

end Visualizer

/-!
## Colour mapper (`get_connotation_color`, `get_palette_color`)

`colorsys.hsv_to_rgb` is pure arithmetic and is embedded exactly.
`np.std` enters through `Env.stdQ`.  When the spectrum is nonempty but so
short that the bass or mid slice is empty, `np.mean` of the empty slice is
NaN, the NaN reaches `int(h*6.0)` inside `hsv_to_rgb` and raises; that path
is modelled as `none`.  (It is unreachable from `update`, whose spectra have
length 128.)
-/

/-- `colorsys.hsv_to_rgb`. -/
def hsv_to_rgb (h s v : ℚ) : ℚ × ℚ × ℚ :=
  if s = 0 then (v, v, v)
  else
    let i := pyTrunc (h * 6)
    let f := h * 6 - i
    let p := v * (1 - s)
    let q := v * (1 - s * f)
    let t := v * (1 - s * (1 - f))
    let im := i % 6
    if im = 0 then (v, t, p)
    else if im = 1 then (q, v, p)
    else if im = 2 then (p, q, v)
    else if im = 3 then (q, p, t)
    else if im = 4 then (p, v, q)
    else (v, p, q)

namespace Visualizer

/-- `get_connotation_color(amp, spectrum)`: clamps `amp` to [0,1], derives
band fractions and a complexity term from the spectrum (thirds and 0 when
the spectrum is absent or empty), buckets amplitude into three hue regimes,
blends, and returns `(hue % 1.0, sat, val)`. -/
def get_connotation_color (env : Env) (amp0 : ℚ) (spectrum : Option (List ℚ)) :
    Option (ℚ × ℚ × ℚ) :=
  let amp := min 1 (max 0 amp0)
  let fracsOpt : Option (ℚ × ℚ × ℚ × ℚ) :=
    match spectrum with
    | some l =>
      if l.length = 0 then some (1/3, 1/3, 1/3, 0)
      else
        let n := l.length
        let bassSlice := l.take (pyTrunc ((n : ℚ) * (15/100))).toNat
        let midSlice :=
          (l.take (pyTrunc ((n : ℚ) * (50/100))).toNat).drop
            (pyTrunc ((n : ℚ) * (15/100))).toNat
        let trebleSlice := l.drop (pyTrunc ((n : ℚ) * (50/100))).toNat
        if bassSlice = [] ∨ midSlice = [] ∨ trebleSlice = [] then none
        else
          let bass := npMean bassSlice
          let mid := npMean midSlice
          let treble := npMean trebleSlice
          let total := bass + mid + treble + 1/1000000
          some (bass / total, mid / total, treble / total,
            env.stdQ l / (npMean l + 1/1000000))
    | none => some (1/3, 1/3, 1/3, 0)
  fracsOpt.map (fun fr =>
    let bass_frac := fr.1
    let mid_frac := fr.2.1
    let treble_frac := fr.2.2.1
    let complexity := fr.2.2.2
    let base :=
      if 7/10 < amp then ((0 : ℚ) + 8/100 * (1 - amp), (1 : ℚ), (1 : ℚ))
      else if amp < 25/100 then
        (6/10 + 2/10 * (25/100 - amp) / (25/100), 7/10, 7/10)
      else (33/100, 8/10, 9/10)
    let hue := base.1 * (1/2) + 0 * bass_frac + 33/100 * mid_frac +
      13/100 * treble_frac + 75/100 * complexity * (7/10)
    let sat := min 1 (base.2.1 + 3/10 * (bass_frac + treble_frac))
    let val := min 1 (base.2.2 + 2/10 * (treble_frac + complexity))
    (pyMod hue 1, sat, val))

/-- `get_palette_color(t, amp, spectrum)`: rotates the connotation hue by
`0.12 * (t % len(self.palette))`, reduces mod 1, converts to RGB and clamps
each channel into 0–255 as an integer.  The method assigns no attribute of
`self`; the returned state is the input state. -/
def get_palette_color (env : Env) (v : Visualizer) (t amp : ℚ)
    (spectrum : Option (List ℚ)) : Option (ℤ × ℤ × ℤ) × Visualizer :=
  ((get_connotation_color env amp spectrum).map (fun c =>
    let h := pyMod (c.1 + 12/100 * pyMod t (palette.length : ℚ)) 1
    let rgb := hsv_to_rgb h c.2.1 c.2.2
    (pyTrunc (min 255 (max 0 (rgb.1 * 255))),
     pyTrunc (min 255 (max 0 (rgb.2.1 * 255))),
     pyTrunc (min 255 (max 0 (rgb.2.2 * 255))))), v)

/-!
## Particle spawning and integration

`add_particles(n, color, type)` appends `n` freshly drawn particles; the
random draws go through `Env`, and the rendering-only `color`/`size` are
omitted.  `update_particles(dt)` integrates each particle per its kind
(drawing as it goes) and removes those whose life has reached 0.
-/

/-- Build one particle as in the body of the `add_particles` loop. -/
def mkParticle (env : Env) (cx cy : ℚ) (h : ℕ) (kind : PKind) : Particle :=
  let angle := env.runi 0 env.twoPi
  match kind with
  | .orbit =>
    { kind := .orbit, x := 0, y := 0, dx := 0, dy := 0, angle := angle
      radius := env.runi ((h : ℚ) * (18/100)) ((h : ℚ) * (38/100))
      speed := env.runi (6/10) (18/10)
      life := env.runi (25/10) (45/10), trail := [] }
  | .comet =>
    let speed := env.runi 7 13
    { kind := .comet, x := cx, y := cy
      dx := env.cosQ angle * speed, dy := env.sinQ angle * speed
      angle := angle, radius := 0, speed := speed
      life := env.runi (7/10) (13/10), trail := [] }
  | .normal =>
    let speed := env.runi 2 7
    { kind := .normal, x := cx, y := cy
      dx := env.cosQ angle * speed, dy := env.sinQ angle * speed
      angle := angle, radius := 0, speed := speed
      life := env.runi (7/10) (12/10), trail := [] }
  | .starburst =>
    let speed := env.runi 8 16
    { kind := .starburst, x := cx, y := cy
      dx := env.cosQ angle * speed, dy := env.sinQ angle * speed
      angle := angle, radius := 0, speed := speed
      life := env.runi (3/10) (6/10), trail := [] }

/-- `add_particles(n, color, type)`: append `n` particles. -/
def add_particles (env : Env) (v : Visualizer) (n : ℕ) (kind : PKind) :
    Visualizer :=
  { v with particles := (v.particles ++ List.replicate n
      (mkParticle env (v.center_x : ℚ) (v.center_y : ℚ) v.screen_height kind)) }

/-- One integration step of a particle (`update_particles` loop body,
state effects only).  Every kind decrements `life` by `dt`; orbit particles
advance their angle with random jitter and push a trail point (capacity 18),
comets move linearly and push a trail point (capacity 22), normal and
starburst particles move linearly. -/
def stepParticle (env : Env) (time dt cx cy : ℚ) (p : Particle) : Particle :=
  match p.kind with
  | .orbit =>
    let angle := p.angle + p.speed * dt * (7/10 + 12/10 * env.rand)
    let mod_radius := p.radius * (1 + 8/100 * env.sinQ (time * (12/10) + angle * 2))
    let px := cx + env.cosQ angle * mod_radius
    let py := cy + env.sinQ angle * mod_radius
    let trail := p.trail ++ [(px, py)]
    let trail := if 18 < trail.length then trail.tail else trail
    { p with angle := angle, trail := trail, life := p.life - dt }
  | .comet =>
    let px := p.x + p.dx * dt * 60
    let py := p.y + p.dy * dt * 60
    let trail := p.trail ++ [(px, py)]
    let trail := if 22 < trail.length then trail.tail else trail
    { p with x := px, y := py, trail := trail, life := p.life - dt }
  | _ =>
    { p with x := p.x + p.dx * dt * 60, y := p.y + p.dy * dt * 60
             life := p.life - dt }

/-- `update_particles(dt)`: integrate every particle, then remove those with
`life <= 0`. -/
def update_particles (env : Env) (time dt cx cy : ℚ) (ps : List Particle) :
    List Particle :=
  (ps.map (stepParticle env time dt cx cy)).filter (fun p => decide (0 < p.life))

end Visualizer

/-!
## `Visualizer.update` (the per-frame entry point)

Rendering calls (`draw_background`, `draw_morphing_blob`, `draw_waveform`,
`draw_spectrum`, and the drawing done inside the particle/shockwave loops)
touch no modelled state and are omitted.  The local `amp` computed in
`update` feeds only the ignored first argument of `detect_beat` and the
rendering colour choices, so it does not appear in the state transition.
`FrameLog` records what each phase of the frame observed, for use in
specifications. -/

structure FrameLog where
  waveform : Option (List ℚ)
  spectrum : Option (List ℚ)
  clap : Bool
  beat : Bool
  drop : Bool
  burst : Bool
  beat2 : Bool
deriving DecidableEq

/-- The fixed per-frame timestep `dt = 1/60` assumed by `update`. -/
def dtFrame : ℚ := 1 / 60

namespace Visualizer

/-- `Visualizer.update(screen)`: advance the clock, fetch waveform and
spectrum (two cursor hops), run clap/beat/drop/burst detection with their
state updates and spawns in source order, integrate shockwaves and
particles.  `detect_bass_drop` raising `TypeError` on an absent spectrum
propagates out as `Except.error`. -/
def update (env : Env) (analyze : List ℚ → List ℚ) (v0 : Visualizer) :
    Except String (Visualizer × FrameLog) :=
  let v := { v0 with time := v0.time + dtFrame }
  let wres := v.ap.get_waveform
  let waveform := wres.1
  let sres := AudioProcessor.get_spectrumA analyze wres.2
  let spectrum := sres.1
  let v := { v with ap := sres.2 }
  let clap := detect_clap waveform spectrum
  let v := clap_countdown v clap
  let bres := detect_beat v 0 dtFrame spectrum
  let beat := bres.1
  let v := bres.2
  let v := if beat then { v with beat_scale := 118/100 }
           else { v with beat_scale := v.beat_scale + (1 - v.beat_scale) * (15/100) }
  match detect_bass_drop v spectrum with
  | .error e => .error e
  | .ok dres =>
    let drop := dres.1.1
    let bass_energy := dres.1.2
    let v := dres.2
    let v := if drop then
        add_particles env
          (add_particles env (trigger_shockwave v bass_energy)
            (env.rint 40 64) .normal)
          (env.rint 6 10) .comet
      else v
    let v := { v with shockwaves := update_shockwaves dtFrame v.shockwaves }
    let b2res := detect_beat v 0 dtFrame spectrum
    let beat2 := b2res.1
    let v := b2res.2
    let v := if beat2 then
        add_particles env
          (add_particles env v (env.rint 24 40) .normal)
          (env.rint 3 6) .orbit
      else v
    let tres := detect_treble_burst v spectrum
    let burst := tres.1
    let v := tres.2
    let v := if burst then add_particles env v (env.rint 16 28) .starburst else v
    let v := { v with particles :=
      update_particles env v.time dtFrame (v.center_x : ℚ) (v.center_y : ℚ) v.particles }
    .ok (v, { waveform := waveform, spectrum := spectrum, clap := clap
              beat := beat, drop := drop, burst := burst, beat2 := beat2 })

end Visualizer

/-!
## Lemmas about `get_waveform`
-/

namespace AudioProcessor

theorem get_waveform_none (ap : AudioProcessor) (h : ap.audio_data = none) :
    get_waveform ap = (none, ap) := by
  simp [get_waveform, h]

theorem get_waveform_past (ap : AudioProcessor) (data : List ℚ)
    (h : ap.audio_data = some data) (hp : data.length ≤ ap.current_position) :
    get_waveform ap = (none, ap) := by
  simp [get_waveform, h, hp]

theorem get_waveform_some (ap : AudioProcessor) (data : List ℚ)
    (h : ap.audio_data = some data) (hp : ap.current_position < data.length) :
    get_waveform ap =
      (some ((data.drop ap.current_position).take
          (min (ap.current_position + chunk_size) data.length - ap.current_position)),
       { ap with current_position :=
          if data.length ≤ ap.current_position + hop_length then 0
          else ap.current_position + hop_length }) := by
  simp [get_waveform, h, Nat.not_le.mpr hp]

end AudioProcessor



/-- C5, counterexample to the final sentence: with a 2560-sample buffer
(so `chunk_size = 2048 ≤ 2560`), the third `get_waveform` call starts at
cursor 1024 and returns only 1536 samples — a short tail occurs even though
the window size does not exceed the buffer length. -/
theorem C5_counterexample :
    ((AudioProcessor.get_waveform
        (AudioProcessor.get_waveform
          (AudioProcessor.get_waveform
            ⟨some (List.replicate 2560 (0 : ℚ)), 0⟩).2).2).1.map List.length)
      = some 1536 ∧ AudioProcessor.chunk_size ≤ 2560 := by
  constructor
  · have h1 := AudioProcessor.get_waveform_some ⟨some (List.replicate 2560 (0 : ℚ)), 0⟩
      (List.replicate 2560 (0 : ℚ)) rfl (by simp only [List.length_replicate]; norm_num)
    rw [h1]
    simp only [List.length_replicate, AudioProcessor.hop_length]
    norm_num
    have h2 := AudioProcessor.get_waveform_some ⟨some (List.replicate 2560 (0 : ℚ)), 512⟩
      (List.replicate 2560 (0 : ℚ)) rfl (by simp only [List.length_replicate]; norm_num)
    rw [h2]
    simp only [List.length_replicate, AudioProcessor.hop_length]
    norm_num
    have h3 := AudioProcessor.get_waveform_some ⟨some (List.replicate 2560 (0 : ℚ)), 1024⟩
      (List.replicate 2560 (0 : ℚ)) rfl (by simp only [List.length_replicate]; norm_num)
    rw [h3]
    simp only [Option.map_some, List.length_take, List.length_drop, List.length_replicate,
      AudioProcessor.chunk_size]
    norm_num
  · decide

/-- C5 (amended): `get_waveform` returns `None` exactly when the buffer is
empty or absent (given the cursor invariant maintained from construction);
on a nonempty buffer it returns the window of
`min(chunk_size, len − cursor)` samples starting at the cursor — exactly
`chunk_size` samples when `cursor + chunk_size ≤ len`, but possibly a
shorter tail even when `chunk_size ≤ len` — advances the cursor by
`hop_length`, wrapping to 0 once it reaches or would exceed the buffer
length, and preserves the cursor invariant. -/
theorem C5_get_waveform_contract (ap : AudioProcessor)
    (hinv : ∀ l, ap.audio_data = some l → ap.current_position < l.length ∨ l = []) :
    ((AudioProcessor.get_waveform ap).1 = none ↔
      ap.audio_data = none ∨ ap.audio_data = some [])
    ∧ (∀ data, ap.audio_data = some data → data ≠ [] →
        (AudioProcessor.get_waveform ap).1 =
          some ((data.drop ap.current_position).take
            (min AudioProcessor.chunk_size (data.length - ap.current_position)))
        ∧ (AudioProcessor.get_waveform ap).2.current_position =
            (if data.length ≤ ap.current_position + AudioProcessor.hop_length then 0
             else ap.current_position + AudioProcessor.hop_length)
        ∧ (AudioProcessor.get_waveform ap).2.audio_data = some data)
    ∧ (ap.audio_data = none → (AudioProcessor.get_waveform ap).2 = ap)
    ∧ (∀ l, (AudioProcessor.get_waveform ap).2.audio_data = some l →
        (AudioProcessor.get_waveform ap).2.current_position < l.length ∨ l = []) := by
  rcases hd : ap.audio_data with _ | data
  · rw [AudioProcessor.get_waveform_none ap hd]
    refine ⟨by simp, ?_, fun _ => rfl, fun l hl => hinv l hl⟩
    intro d hdd
    exact absurd hdd (by simp)
  · rcases hinv data hd with hlt | rfl
    · have hne : data ≠ [] := by
        intro h
        subst h
        exact absurd hlt (by simp)
      rw [AudioProcessor.get_waveform_some ap data hd hlt]
      refine ⟨by simp [hne], ?_, ?_, ?_⟩
      · intro d hdd _
        obtain rfl : data = d := Option.some.inj hdd
        refine ⟨?_, rfl, by simp [hd]⟩
        have hc : min (ap.current_position + AudioProcessor.chunk_size) data.length -
            ap.current_position =
            min AudioProcessor.chunk_size (data.length - ap.current_position) := by
          omega
        rw [hc]
      · intro h
        exact absurd h (by simp)
      · intro l hl
        dsimp only at hl
        rw [hd] at hl
        obtain rfl : data = l := Option.some.inj hl
        left
        dsimp only
        split <;> omega
    · rw [AudioProcessor.get_waveform_past ap [] hd (by simp)]
      refine ⟨by simp, ?_, ?_, fun l hl => hinv l hl⟩
      · intro d hdd h
        exact absurd (Option.some.inj hdd).symm h
      · intro h
        exact absurd h (by simp)

/-- C5 witness: the contract applied to a concrete three-sample buffer. -/
theorem C5_get_waveform_contract_witness :
    (∀ l, (⟨some [(1 : ℚ), 2, 3], 0⟩ : AudioProcessor).audio_data = some l →
      (⟨some [(1 : ℚ), 2, 3], 0⟩ : AudioProcessor).current_position < l.length ∨ l = [])
    ∧ ((AudioProcessor.get_waveform ⟨some [(1 : ℚ), 2, 3], 0⟩).1 = none ↔
        (⟨some [(1 : ℚ), 2, 3], 0⟩ : AudioProcessor).audio_data = none ∨
        (⟨some [(1 : ℚ), 2, 3], 0⟩ : AudioProcessor).audio_data = some []) := by
  have hinv : ∀ l, (⟨some [(1 : ℚ), 2, 3], 0⟩ : AudioProcessor).audio_data = some l →
      (⟨some [(1 : ℚ), 2, 3], 0⟩ : AudioProcessor).current_position < l.length ∨ l = [] := by
    intro l hl
    obtain rfl : [(1 : ℚ), 2, 3] = l := Option.some.inj hl
    left
    decide
  exact ⟨hinv, (C5_get_waveform_contract _ hinv).1⟩

/-!
## C4: beat-detector semantics and cooldown scenario
-/

namespace Visualizer

/-- Run `detect_beat` once per frame over a list of spectra, advancing the
clock by `dtFrame` before each detection exactly as `update` does, and
collect the trigger booleans. -/
def beatRun (v : Visualizer) : List (List ℚ) → List Bool
  | [] => []
  | sp :: rest =>
    let r := detect_beat { v with time := v.time + dtFrame } 0 dtFrame (some sp)
    r.1 :: beatRun r.2 rest

end Visualizer

/-- The C4 synthetic scenario: 11 quiet frames (bass mean 0.1), then a +0.25
jump at frame 12 that stays flat for 11 more frames. -/
def beatScenarioFlat : List (List ℚ) :=
  List.replicate 11 [1/10] ++ List.replicate 12 [7/20]

/-- The C4 variant scenario: the +0.25 jump at frame 12 is followed by a
second +0.25 jump at frame 13 (bass 0.6), flat afterwards. -/
def beatScenarioDouble : List (List ℚ) :=
  List.replicate 11 [1/10] ++ [[7/20]] ++ List.replicate 11 [3/5]

/-- The expected trigger pattern for both scenarios: one beat at frame 12. -/
def beatExpected : List Bool :=
  List.replicate 11 false ++ [true] ++ List.replicate 11 false

/-- C4: `detect_beat` triggers exactly when the bass-band energy (mean of
the first 10% of the spectrum) exceeds the previous frame's stored value by
more than the 0.18 threshold AND more than 0.18 s of simulated time has
passed since the last trigger; and on the synthetic scenarios (a +0.25
bass jump at frame 12, flat after — or with a second +0.25 jump at frame
13), a beat fires at frame 12 and never again within the following 11
frames at dt = 1/60 s. -/
theorem C4_detect_beat (v : Visualizer) (spectrum : Option (List ℚ))
    (ht : v.beat_threshold = 18/100) (hc : v.beat_cooldown = 18/100) :
    ((Visualizer.detect_beat v 0 dtFrame spectrum).1 = true ↔
      (18/100 < Visualizer.bassEnergyOf spectrum - v.prev_amp ∧
       18/100 < v.time - v.last_beat_time))
    ∧ Visualizer.beatRun (Visualizer.init ⟨none, 0⟩ 1280 720) beatScenarioFlat
        = beatExpected
    ∧ Visualizer.beatRun (Visualizer.init ⟨none, 0⟩ 1280 720) beatScenarioDouble
        = beatExpected := by
  refine ⟨?_, ?_, ?_⟩
  case refine_2 =>
    simp only [beatScenarioFlat, beatExpected]
    norm_num [Visualizer.beatRun, Visualizer.detect_beat, Visualizer.bassEnergyOf,
      Visualizer.init, npMean, pyTrunc, dtFrame]
    simp [List.replicate_succ]
  case refine_3 =>
    simp only [beatScenarioDouble, beatExpected]
    norm_num [Visualizer.beatRun, Visualizer.detect_beat, Visualizer.bassEnergyOf,
      Visualizer.init, npMean, pyTrunc, dtFrame]
    simp [List.replicate_succ]
  rw [Visualizer.detect_beat]
  split
  · rename_i h
    rw [ht, hc] at h
    simpa using h
  · rename_i h
    rw [ht, hc] at h
    simpa using h

/-- C4 witness: the characterisation applied to a freshly initialised
visualizer (threshold and cooldown are the 0.18 constants from `__init__`)
and a one-bin spectrum. -/
theorem C4_detect_beat_witness :
    (Visualizer.init ⟨none, 0⟩ 1280 720).beat_threshold = 18/100
    ∧ ((Visualizer.detect_beat (Visualizer.init ⟨none, 0⟩ 1280 720) 0 dtFrame
          (some [1])).1 = true ↔
        (18/100 < Visualizer.bassEnergyOf (some [1]) -
          (Visualizer.init ⟨none, 0⟩ 1280 720).prev_amp ∧
         18/100 < (Visualizer.init ⟨none, 0⟩ 1280 720).time -
          (Visualizer.init ⟨none, 0⟩ 1280 720).last_beat_time)) :=
  ⟨rfl, (C4_detect_beat (Visualizer.init ⟨none, 0⟩ 1280 720) (some [1]) rfl rfl).1⟩

/-!
## C6: clap detection and the flatten countdown
-/

/-- C6: `detect_clap` is a pure, instantaneous condition — no state is read
or written, so it fires on every frame the condition holds — true exactly
when the mean absolute amplitude exceeds 0.10 AND the mean of the top 30%
of the spectrum (indices from `int(0.7*n)`) exceeds 0.35, false when either
input is absent; and in `update` a clap resets the flatten countdown to 12
(both counters) while clap-free frames decrement a positive countdown by
one, stopping at 0. -/
theorem C6_detect_clap (w sp : List ℚ)
    (hw : w ≠ []) (hsp : sp.drop (pyTrunc ((sp.length : ℚ) * (7/10))).toNat ≠ []) :
    (Visualizer.detect_clap (some w) (some sp) = true ↔
      (10/100 < npMean (w.map (fun x => |x|)) ∧
       35/100 < npMean (sp.drop (pyTrunc ((sp.length : ℚ) * (7/10))).toNat)))
    ∧ (∀ sp1 : List ℚ, Visualizer.detect_clap none (some sp1) = false)
    ∧ (∀ w1 : List ℚ, Visualizer.detect_clap (some w1) none = false)
    ∧ Visualizer.detect_clap none none = false
    ∧ (∀ v : Visualizer, (Visualizer.clap_countdown v true).clap_flatten_frames = 12
        ∧ (Visualizer.clap_countdown v true).clap_flatten_total = 12)
    ∧ (∀ v : Visualizer, (Visualizer.clap_countdown v false).clap_flatten_frames =
        (if 0 < v.clap_flatten_frames then v.clap_flatten_frames - 1
         else v.clap_flatten_frames)
        ∧ (Visualizer.clap_countdown v false).clap_flatten_total = v.clap_flatten_total) := by
  have hmap : w.map (fun x => |x|) ≠ [] := by simpa using hw
  refine ⟨?_, fun _ => rfl, fun _ => rfl, rfl, fun v => ⟨rfl, rfl⟩, fun v => ?_⟩
  · simp [Visualizer.detect_clap, npMeanPF, hmap, hsp, PF.gtQ, npMean]
  · constructor
    · simp only [Visualizer.clap_countdown, if_neg Bool.false_ne_true]
      split <;> simp
    · simp only [Visualizer.clap_countdown, if_neg Bool.false_ne_true]
      split <;> rfl

/-- C6 witness: the characterisation at the one-sample inputs `[1]`. -/
theorem C6_detect_clap_witness :
    ([(1 : ℚ)] ≠ [] ∧
      ([(1 : ℚ)]).drop (pyTrunc ((([(1 : ℚ)]).length : ℚ) * (7/10))).toNat ≠ [])
    ∧ (Visualizer.detect_clap (some [(1 : ℚ)]) (some [(1 : ℚ)]) = true ↔
        (10/100 < npMean (([(1 : ℚ)]).map (fun x => |x|)) ∧
         35/100 < npMean (([(1 : ℚ)]).drop
            (pyTrunc ((([(1 : ℚ)]).length : ℚ) * (7/10))).toNat))) := by
  have h1 : ([(1 : ℚ)]).drop (pyTrunc ((([(1 : ℚ)]).length : ℚ) * (7/10))).toNat ≠ [] := by
    norm_num [pyTrunc]
  exact ⟨⟨by simp, h1⟩, (C6_detect_clap [1] [1] (by simp) h1).1⟩

/-!
## C7: shockwave lifecycle
-/

/-- C7 counterexample: a freshly spawned shockwave (radius 80, alpha 180,
width 16, max radius 504 as for a 1280×720 screen) does not have its width
multiplied by exactly 0.97 on an integration step: the source truncates to
an integer, so the width becomes 15, not 15.52. -/
theorem C7_counterexample :
    ((Visualizer.stepShockwave dtFrame
        ⟨80, 504, 180, 16⟩).width : ℚ) ≠ (16 : ℚ) * (97/100)
    ∧ (Visualizer.stepShockwave dtFrame ⟨80, 504, 180, 16⟩).width = 15 := by
  have h : (Visualizer.stepShockwave dtFrame ⟨80, 504, 180, 16⟩).width = 15 := by
    norm_num [Visualizer.stepShockwave, pyTrunc]
  refine ⟨?_, h⟩
  rw [h]
  norm_num

/-- C7 (amended): every shockwave is spawned on bass drop with radius 80,
alpha 180 and stroke width `16 + ⌊24 × bassEnergy⌋`; each integration step
adds `18·dt·60` to the radius, multiplies alpha by 0.93, and replaces the
width by `max 2 (int(width × 0.97))` — integer truncation, not an exact
×0.97 — and a shockwave is removed exactly when `radius > maxRadius` or
`alpha < 8`, so every survivor satisfies `radius ≤ maxRadius ∧ alpha ≥ 8`. -/
theorem C7_shockwave_lifecycle (v : Visualizer) (be dt : ℚ) (hbe : 0 ≤ be)
    (s1 : Shockwave) (l : List Shockwave) :
    ((Visualizer.trigger_shockwave v be).shockwaves = v.shockwaves ++
      [{ radius := 80
         max_radius := pyTrunc ((min v.screen_width v.screen_height : ℚ) * (7/10))
         alpha := 180
         width := 16 + ⌊be * 24⌋ }])
    ∧ ((Visualizer.stepShockwave dt s1).radius = s1.radius + 18 * dt * 60
        ∧ (Visualizer.stepShockwave dt s1).alpha = s1.alpha * (93/100)
        ∧ (Visualizer.stepShockwave dt s1).width =
            max 2 (pyTrunc ((s1.width : ℚ) * (97/100)))
        ∧ (Visualizer.stepShockwave dt s1).max_radius = s1.max_radius)
    ∧ (∀ s2, s2 ∈ Visualizer.update_shockwaves dt l ↔
        (∃ s0 ∈ l, s2 = Visualizer.stepShockwave dt s0) ∧
          s2.radius ≤ (s2.max_radius : ℚ) ∧ 8 ≤ s2.alpha)
    ∧ (∀ s2 ∈ Visualizer.update_shockwaves dt l,
        s2.radius ≤ (s2.max_radius : ℚ) ∧ 8 ≤ s2.alpha) := by
  refine ⟨?_, ⟨rfl, rfl, rfl, rfl⟩, ?_, ?_⟩
  · simp only [Visualizer.trigger_shockwave, List.append_cancel_left_eq, List.cons.injEq,
      and_true]
    congr 2
    simp [pyTrunc, mul_nonneg hbe]
  · intro s2
    simp only [Visualizer.update_shockwaves, List.mem_filter, List.mem_map]
    constructor
    · rintro ⟨⟨s0, hs0, rfl⟩, hk⟩
      simp only [Bool.not_eq_eq_eq_not, Bool.not_true, Bool.or_eq_false_iff,
        decide_eq_false_iff_not, not_lt] at hk
      exact ⟨⟨s0, hs0, rfl⟩, hk.1, hk.2⟩
    · rintro ⟨⟨s0, hs0, rfl⟩, h1, h2⟩
      refine ⟨⟨s0, hs0, rfl⟩, ?_⟩
      simp only [Bool.not_eq_eq_eq_not, Bool.not_true, Bool.or_eq_false_iff,
        decide_eq_false_iff_not, not_lt]
      exact ⟨h1, h2⟩
  · intro s2 hs2
    simp only [Visualizer.update_shockwaves, List.mem_filter] at hs2
    have hk := hs2.2
    simp only [Bool.not_eq_eq_eq_not, Bool.not_true, Bool.or_eq_false_iff,
      decide_eq_false_iff_not, not_lt] at hk
    exact hk

/-- C7 witness: the lifecycle facts at `bassEnergy = 1/2`, `dt = 1/60`, a
concrete shockwave and a singleton list. -/
theorem C7_shockwave_lifecycle_witness :
    (0 : ℚ) ≤ 1/2
    ∧ (Visualizer.stepShockwave (1/60) ⟨80, 504, 180, 16⟩).radius = 80 + 18 * (1/60) * 60 := by
  refine ⟨by norm_num, ?_⟩
  exact (C7_shockwave_lifecycle (Visualizer.init ⟨none, 0⟩ 1280 720) (1/2) (1/60)
    (by norm_num) ⟨80, 504, 180, 16⟩ []).2.1.1

/-!
## C8: particle life decrement and removal
-/

/-- Iterate `update_particles` a given number of frames (fixed `dtFrame`). -/
def runParticles (env : Env) (time cx cy : ℚ) : ℕ → List Particle → List Particle
  | 0, ps => ps
  | n + 1, ps =>
    runParticles env time cx cy n (Visualizer.update_particles env time dtFrame cx cy ps)

/-- The concrete normal particle of the C8 scenario: spawned with
`life = 1.0` s. -/
def particleOneSecond : Particle :=
  { kind := .normal, x := 640, y := 360, dx := 1, dy := 0, angle := 0
    radius := 0, speed := 1, life := 1, trail := [] }

/-- C8: every particle of every kind has its life decremented by exactly
`dt` on each integration step, and a stepped particle is kept exactly when
its decremented life is still positive (removed exactly when `life ≤ 0`);
consequently the normal particle spawned with `life = 1.0` s survives 59
integration steps at `dt = 1/60` and is removed exactly at step 60. -/
theorem C8_particle_life (env : Env) (time dt cx cy : ℚ) (p : Particle)
    (ps : List Particle) :
    ((Visualizer.stepParticle env time dt cx cy p).life = p.life - dt)
    ∧ (∀ q, q ∈ Visualizer.update_particles env time dt cx cy ps ↔
        ((∃ p0 ∈ ps, q = Visualizer.stepParticle env time dt cx cy p0) ∧ 0 < q.life))
    ∧ runParticles env0 0 640 360 59 [particleOneSecond] ≠ []
    ∧ runParticles env0 0 640 360 60 [particleOneSecond] = [] := by
  refine ⟨?_, ?_, ?_, ?_⟩
  · obtain ⟨k, x, y, dx, dy, ang, r, sp, lf, tr⟩ := p
    cases k <;> rfl
  · intro q
    simp only [Visualizer.update_particles, List.mem_filter, List.mem_map,
      decide_eq_true_eq]
    tauto
  · norm_num [runParticles, Visualizer.update_particles, Visualizer.stepParticle,
      particleOneSecond, dtFrame, env0]
  · norm_num [runParticles, Visualizer.update_particles, Visualizer.stepParticle,
      particleOneSecond, dtFrame, env0]

/-!
## C2: totality of `update` over empty inputs — the `detect_bass_drop` slip

`detect_bass_drop` evaluates `len(spectrum)` on its first line, before the
`None` guard that its own energy expression contains, so `update` on an
empty audio buffer (whose `get_spectrum` is `None`) raises `TypeError`
instead of degrading.  The other detectors do tolerate the absent
spectrum. -/
theorem C2_update_typeerror :
    Visualizer.update env0 (fun c => c) (Visualizer.init ⟨some [], 0⟩ 1280 720) =
      .error "TypeError: object of type NoneType has no len()"
    ∧ (Visualizer.detect_bass_drop (Visualizer.init ⟨some [], 0⟩ 1280 720) none =
        .error "TypeError: object of type NoneType has no len()")
    ∧ (Visualizer.detect_beat (Visualizer.init ⟨some [], 0⟩ 1280 720) 0 dtFrame none).1
        = false
    ∧ (Visualizer.detect_treble_burst (Visualizer.init ⟨some [], 0⟩ 1280 720) none).1
        = false
    ∧ Visualizer.detect_clap none none = false := by
  refine ⟨?_, rfl, ?_, rfl, rfl⟩
  · norm_num [Visualizer.update, Visualizer.init, Visualizer.detect_clap,
      Visualizer.clap_countdown, Visualizer.detect_beat, Visualizer.detect_bass_drop,
      Visualizer.bassEnergyOf, AudioProcessor.get_waveform, AudioProcessor.get_spectrumA,
      dtFrame, env0]
  · norm_num [Visualizer.detect_beat, Visualizer.bassEnergyOf, Visualizer.init, dtFrame]

/-!
## C3: the re-checked beat condition in `update` never fires

`update` calls `detect_beat` twice on the same spectrum.  The first call
stores the current bass energy into `prev_amp`, so the second call — the
one guarding the 24–40 normal + 3–6 orbit particle spawns — sees a rise of
exactly 0, which can never exceed the positive threshold.  The spawn code
is dead: a frame on which the beat detector triggers spawns no particles. -/

/-- A mid-track visualizer state on which the beat detector fires on the
next frame: quiet four-sample buffer, analysis yielding the one-bin
spectrum `[0.35]`, previous bass energy 0 for the beat detector and 0.3 for
the drop detector (so no bass drop), previous treble energy 0.5 (so no
treble burst). -/
def vBeatFrame : Visualizer :=
  { Visualizer.init ⟨some [0, 0, 0, 0], 0⟩ 1280 720 with
    time := 10, prev_bass_energy := 3/10, prev_treble_energy := 1/2 }

set_option maxHeartbeats 1600000 in
/-- C3: on the concrete frame `vBeatFrame` the beat detector triggers
(`beat = true`, observable through the log), yet the re-checked condition
is false and the particle list stays empty — no 24–40 normal and no 3–6
orbit particles are spawned; and in general the second of two consecutive
`detect_beat` calls on the same spectrum returns false, because the first
stores `bassEnergyOf spectrum` into `prev_amp` and a zero rise cannot
exceed a positive threshold. -/
theorem C3_beat_spawn_dead :
    ((Visualizer.update env0 (fun _ => [7/20]) vBeatFrame).map
        (fun r => (r.2.beat, r.2.beat2, r.1.particles.length))) = .ok (true, false, 0)
    ∧ (∀ (v : Visualizer) (amp dt : ℚ) (sp : Option (List ℚ)),
        (Visualizer.detect_beat v amp dt sp).2.prev_amp = Visualizer.bassEnergyOf sp)
    ∧ (∀ (w : Visualizer) (amp dt : ℚ) (sp : Option (List ℚ)),
        0 < w.beat_threshold → w.prev_amp = Visualizer.bassEnergyOf sp →
        (Visualizer.detect_beat w amp dt sp).1 = false) := by
  refine ⟨?_, ?_, ?_⟩
  · norm_num [Visualizer.update, Visualizer.init, vBeatFrame, Visualizer.detect_clap,
      Visualizer.clap_countdown, Visualizer.detect_beat, Visualizer.detect_bass_drop,
      Visualizer.detect_treble_burst, Visualizer.bassEnergyOf,
      Visualizer.update_shockwaves, Visualizer.update_particles,
      AudioProcessor.get_waveform, AudioProcessor.get_spectrumA,
      AudioProcessor.chunk_size, AudioProcessor.hop_length,
      npMean, npMeanPF, PF.gtQ, pyTrunc, dtFrame, env0, Except.map]
  · intro v amp dt sp
    rw [Visualizer.detect_beat]
    split <;> rfl
  · intro w amp dt sp h1 h2
    rw [Visualizer.detect_beat, if_neg]
    rintro ⟨hl, _⟩
    rw [h2] at hl
    simp only [sub_self] at hl
    exact absurd hl (not_lt.mpr (le_of_lt h1))

/-- C3 witness: the dead-code fact applied to a concrete state whose
`prev_amp` already equals the bass energy of the spectrum `[1/2]`. -/
theorem C3_beat_spawn_dead_witness :
    (0 : ℚ) < ({ Visualizer.init ⟨none, 0⟩ 1280 720 with
        prev_amp := 1/2 } : Visualizer).beat_threshold
    ∧ ({ Visualizer.init ⟨none, 0⟩ 1280 720 with
        prev_amp := 1/2 } : Visualizer).prev_amp =
          Visualizer.bassEnergyOf (some [1/2])
    ∧ (Visualizer.detect_beat ({ Visualizer.init ⟨none, 0⟩ 1280 720 with
        prev_amp := 1/2 }) 0 dtFrame (some [1/2])).1 = false := by
  have h1 : (0 : ℚ) < ({ Visualizer.init ⟨none, 0⟩ 1280 720 with
      prev_amp := 1/2 } : Visualizer).beat_threshold := by
    norm_num [Visualizer.init]
  have h2 : ({ Visualizer.init ⟨none, 0⟩ 1280 720 with
      prev_amp := 1/2 } : Visualizer).prev_amp =
        Visualizer.bassEnergyOf (some [1/2]) := by
    norm_num [Visualizer.init, Visualizer.bassEnergyOf, npMean, pyTrunc]
  exact ⟨h1, h2, C3_beat_spawn_dead.2.2 _ 0 dtFrame (some [1/2]) h1 h2⟩

/-!
## C10: two cursor hops per frame

Helper lemmas: every post-fetch phase of `update` leaves the audio
processor state untouched.
-/

theorem clap_countdown_ap (v : Visualizer) (c : Bool) :
    (Visualizer.clap_countdown v c).ap = v.ap := by
  rw [Visualizer.clap_countdown]
  split_ifs <;> rfl

theorem detect_beat_ap (v : Visualizer) (a d : ℚ) (sp : Option (List ℚ)) :
    ((Visualizer.detect_beat v a d sp).2).ap = v.ap := by
  rw [Visualizer.detect_beat]
  split <;> rfl

theorem detect_treble_burst_ap (v : Visualizer) (sp : Option (List ℚ)) :
    ((Visualizer.detect_treble_burst v sp).2).ap = v.ap := by
  rw [Visualizer.detect_treble_burst.eq_def]
  rcases sp with _ | l
  · rfl
  · dsimp only
    split <;> rfl

theorem add_particles_ap (env : Env) (v : Visualizer) (n : ℕ) (k : PKind) :
    (Visualizer.add_particles env v n k).ap = v.ap := rfl

theorem trigger_shockwave_ap (v : Visualizer) (be : ℚ) :
    (Visualizer.trigger_shockwave v be).ap = v.ap := rfl

set_option maxHeartbeats 1600000 in
theorem update_ok_shape (env : Env) (analyze : List ℚ → List ℚ) (v0 : Visualizer)
    (w : List ℚ) (ap1 : AudioProcessor) (sp : List ℚ) (ap2 : AudioProcessor)
    (hw : AudioProcessor.get_waveform v0.ap = (some w, ap1))
    (hs : AudioProcessor.get_spectrumA analyze ap1 = (some sp, ap2)) :
    ∃ vout log, Visualizer.update env analyze v0 = .ok (vout, log)
      ∧ vout.ap = ap2 ∧ log.waveform = some w ∧ log.spectrum = some sp := by
  rw [Visualizer.update]
  simp only [hw, hs, Visualizer.detect_bass_drop]
  split_ifs <;>
    refine ⟨_, _, rfl, ?_, rfl, rfl⟩ <;>
    simp only [add_particles_ap, trigger_shockwave_ap, detect_treble_burst_ap,
      detect_beat_ap, clap_countdown_ap, apply_ite (Visualizer.ap), ite_self]

set_option maxHeartbeats 800000 in
theorem C10_update_double_fetch (env : Env) (analyze : List ℚ → List ℚ)
    (v : Visualizer) (data : List ℚ) (hd : v.ap.audio_data = some data)
    (hlen : v.ap.current_position + 2 * AudioProcessor.hop_length < data.length) :
    ((Visualizer.update env analyze v).map (fun r => r.2.waveform)) =
      .ok (some ((data.drop v.ap.current_position).take
        (min (v.ap.current_position + AudioProcessor.chunk_size) data.length -
          v.ap.current_position)))
    ∧ ((Visualizer.update env analyze v).map (fun r => r.2.spectrum)) =
      .ok (some (analyze
        ((data.drop (v.ap.current_position + AudioProcessor.hop_length)).take
          (min (v.ap.current_position + AudioProcessor.hop_length + AudioProcessor.chunk_size)
            data.length - (v.ap.current_position + AudioProcessor.hop_length)))))
    ∧ ((Visualizer.update env analyze v).map (fun r => r.1.ap.current_position)) =
      .ok (v.ap.current_position + 2 * AudioProcessor.hop_length) := by
  have hgw1 := AudioProcessor.get_waveform_some v.ap data hd (by omega)
  rw [if_neg (by omega : ¬ data.length ≤ v.ap.current_position + AudioProcessor.hop_length)]
    at hgw1
  have hgw2 := AudioProcessor.get_waveform_some
    { v.ap with current_position := v.ap.current_position + AudioProcessor.hop_length }
    data (by simpa using hd) (by simp; omega)
  simp only at hgw2
  rw [if_neg (by omega :
    ¬ data.length ≤ v.ap.current_position + AudioProcessor.hop_length +
      AudioProcessor.hop_length)] at hgw2
  have hsp : AudioProcessor.get_spectrumA analyze
      { v.ap with current_position := v.ap.current_position + AudioProcessor.hop_length } =
      (some (analyze
        ((data.drop (v.ap.current_position + AudioProcessor.hop_length)).take
          (min (v.ap.current_position + AudioProcessor.hop_length + AudioProcessor.chunk_size)
            data.length - (v.ap.current_position + AudioProcessor.hop_length)))),
       { v.ap with current_position := v.ap.current_position + AudioProcessor.hop_length +
          AudioProcessor.hop_length }) := by
    rw [AudioProcessor.get_spectrumA, hgw2]
  obtain ⟨vout, log, heq, hap, hwv, hsv⟩ := update_ok_shape env analyze v _ _ _ _ hgw1 hsp
  rw [heq]
  refine ⟨?_, ?_, ?_⟩
  · simp [Except.map, hwv]
  · simp [Except.map, hsv]
  · simp [Except.map, hap, two_mul, Nat.add_assoc]

/-- C10 witness: the double-fetch contract on a 3000-sample silent buffer
from the initial state — the cursor lands on 1024 after one frame. -/
theorem C10_update_double_fetch_witness :
    (Visualizer.init ⟨some (List.replicate 3000 (0 : ℚ)), 0⟩ 1280 720).ap.audio_data
      = some (List.replicate 3000 (0 : ℚ))
    ∧ ((Visualizer.update env0 (fun c => c)
          (Visualizer.init ⟨some (List.replicate 3000 (0 : ℚ)), 0⟩ 1280 720)).map
        (fun r => r.1.ap.current_position)) =
      .ok ((Visualizer.init ⟨some (List.replicate 3000 (0 : ℚ)), 0⟩ 1280 720).ap.current_position
        + 2 * AudioProcessor.hop_length) :=
  ⟨rfl, (C10_update_double_fetch env0 (fun c => c)
    (Visualizer.init ⟨some (List.replicate 3000 (0 : ℚ)), 0⟩ 1280 720)
    (List.replicate 3000 (0 : ℚ)) rfl
    (by simp only [Visualizer.init, List.length_replicate, AudioProcessor.hop_length]
        norm_num)).2.2⟩

/-!
## C9: palette-colour determinism and hue rotation
-/

/-- C9: `get_palette_color` mutates no visualizer state (the returned state
is the input state), is deterministic (two calls with identical arguments
coincide — immediate since the embedding is a pure function, mirroring the
source method, which reads only its arguments and the fixed palette
length), and its hue is the connotation hue rotated by `0.12 × (t mod 8)`
reduced modulo 1, with each RGB channel clamped into 0–255 and truncated
to an integer. -/
theorem C9_get_palette_color (env : Env) (v : Visualizer) (t amp : ℚ)
    (sp : Option (List ℚ)) (bh bs bv : ℚ)
    (hc : Visualizer.get_connotation_color env amp sp = some (bh, bs, bv)) :
    (Visualizer.get_palette_color env v t amp sp).2 = v
    ∧ Visualizer.get_palette_color env v t amp sp =
        Visualizer.get_palette_color env v t amp sp
    ∧ (Visualizer.get_palette_color env v t amp sp).1 =
        some (pyTrunc (min 255 (max 0 ((hsv_to_rgb (pyMod (bh + 12/100 * pyMod t 8) 1)
                bs bv).1 * 255))),
              pyTrunc (min 255 (max 0 ((hsv_to_rgb (pyMod (bh + 12/100 * pyMod t 8) 1)
                bs bv).2.1 * 255))),
              pyTrunc (min 255 (max 0 ((hsv_to_rgb (pyMod (bh + 12/100 * pyMod t 8) 1)
                bs bv).2.2 * 255)))) := by
  refine ⟨rfl, rfl, ?_⟩
  have hlen : ((Visualizer.palette.length : ℚ)) = 8 := by
    norm_num [Visualizer.palette]
  simp [Visualizer.get_palette_color, hc, hlen]

/-- C9 witness: the hue-rotation contract at `t = 1`, `amp = 1/2`, no
spectrum; the connotation colour there is `(191/600, 1, 29/30)`. -/
theorem C9_get_palette_color_witness :
    Visualizer.get_connotation_color env0 (1/2) none = some (191/600, 1, 29/30)
    ∧ (Visualizer.get_palette_color env0 (Visualizer.init ⟨none, 0⟩ 1280 720)
        1 (1/2) none).2 = Visualizer.init ⟨none, 0⟩ 1280 720 := by
  have hc : Visualizer.get_connotation_color env0 (1/2) none = some (191/600, 1, 29/30) := by
    norm_num [Visualizer.get_connotation_color, env0, pyMod]
  exact ⟨hc, (C9_get_palette_color env0 (Visualizer.init ⟨none, 0⟩ 1280 720)
    1 (1/2) none _ _ _ hc).1⟩

/-!
## C1: the spectral pipeline — lemmas

Attained bounds for the seeded matrix folds, NaN propagation, and [0,1]
preservation through the mean and the linear resampling.
-/

theorem le_foldl_max_init (l : List ℚ) (a : ℚ) : a ≤ l.foldl max a := by
  induction l generalizing a with
  | nil => exact le_refl a
  | cons b t ih => exact le_trans (le_max_left a b) (ih (max a b))

theorem le_foldl_max_of_mem (l : List ℚ) (a x : ℚ) (h : x ∈ l) :
    x ≤ l.foldl max a := by
  induction l generalizing a with
  | nil => cases h
  | cons b t ih =>
    rcases List.mem_cons.mp h with rfl | hx
    · exact le_trans (le_max_right a x) (le_foldl_max_init t (max a x))
    · exact ih (max a b) hx

theorem foldl_min_le_init (l : List ℚ) (a : ℚ) : l.foldl min a ≤ a := by
  induction l generalizing a with
  | nil => exact le_refl a
  | cons b t ih => exact le_trans (ih (min a b)) (min_le_left a b)

theorem foldl_min_le_of_mem (l : List ℚ) (a x : ℚ) (h : x ∈ l) :
    l.foldl min a ≤ x := by
  induction l generalizing a with
  | nil => cases h
  | cons b t ih =>
    rcases List.mem_cons.mp h with rfl | hx
    · exact le_trans (foldl_min_le_init t (min a x)) (min_le_right a x)
    · exact ih (min a b) hx

theorem le_matFold_max_init (S : List (List ℚ)) (a : ℚ) : a ≤ matFold max a S := by
  induction S generalizing a with
  | nil => exact le_refl a
  | cons r rs ih => exact le_trans (le_foldl_max_init r a) (ih (r.foldl max a))

theorem matFold_min_le_init (S : List (List ℚ)) (a : ℚ) : matFold min a S ≤ a := by
  induction S generalizing a with
  | nil => exact le_refl a
  | cons r rs ih => exact le_trans (ih (r.foldl min a)) (foldl_min_le_init r a)

theorem le_matFold_max_of_mem (S : List (List ℚ)) (a x : ℚ) (row : List ℚ)
    (hr : row ∈ S) (hx : x ∈ row) : x ≤ matFold max a S := by
  induction S generalizing a with
  | nil => cases hr
  | cons r rs ih =>
    rcases List.mem_cons.mp hr with rfl | hrow
    · exact le_trans (le_foldl_max_of_mem row a x hx) (le_matFold_max_init rs _)
    · exact ih _ hrow

theorem matFold_min_le_of_mem (S : List (List ℚ)) (a x : ℚ) (row : List ℚ)
    (hr : row ∈ S) (hx : x ∈ row) : matFold min a S ≤ x := by
  induction S generalizing a with
  | nil => cases hr
  | cons r rs ih =>
    rcases List.mem_cons.mp hr with rfl | hrow
    · exact le_trans (matFold_min_le_init rs _) (foldl_min_le_of_mem row a x hx)
    · exact ih _ hrow

/-- Every entry of a matrix is at most its `np.max`. -/
theorem le_npMax (S : List (List ℚ)) (row : List ℚ) (x : ℚ)
    (hr : row ∈ S) (hx : x ∈ row) : x ≤ npMax S :=
  le_matFold_max_of_mem S _ x row hr hx

/-- Every entry of a matrix is at least its `np.min`. -/
theorem npMin_le (S : List (List ℚ)) (row : List ℚ) (x : ℚ)
    (hr : row ∈ S) (hx : x ∈ row) : npMin S ≤ x :=
  matFold_min_le_of_mem S _ x row hr hx

theorem PF.add_nan (e : PF) : PF.add PF.nan e = PF.nan := by
  cases e <;> rfl

theorem PF.foldl_add_nan (l : List PF) : l.foldl PF.add PF.nan = PF.nan := by
  induction l with
  | nil => rfl
  | cons e t ih => simpa [PF.add_nan] using ih

theorem PF.div_nan (e : PF) : PF.div PF.nan e = PF.nan := by
  cases e <;> rfl

/-- A nonempty row of NaNs has NaN mean. -/
theorem rowMeanPF_nan (row : List PF) (hne : row ≠ [])
    (hall : ∀ e ∈ row, e = PF.nan) : rowMeanPF row = PF.nan := by
  rw [rowMeanPF, if_neg hne]
  rcases row with _ | ⟨e, t⟩
  · exact absurd rfl hne
  · have he : e = PF.nan := hall e (List.mem_cons_self _ _)
    subst he
    rw [List.foldl_cons]
    have : PF.add (PF.fin 0) PF.nan = PF.nan := rfl
    rw [this, PF.foldl_add_nan]
    exact PF.div_nan _

theorem getD_nan_of_all_nan (ys : List PF) (hall : ∀ e ∈ ys, e = PF.nan) (i : ℕ) :
    ys.getD i PF.nan = PF.nan := by
  rcases Nat.lt_or_ge i ys.length with h | h
  · rw [List.getD_eq_getElem ys PF.nan h]
    exact hall _ (ys.getElem_mem h)
  · exact List.getD_eq_default ys PF.nan h

theorem getLastD_nan_of_all_nan (ys : List PF) (d : PF)
    (hall : ∀ e ∈ ys, e = PF.nan) (hd : d = PF.nan) : ys.getLastD d = PF.nan := by
  induction ys generalizing d with
  | nil => exact hd
  | cons e t ih =>
    rw [List.getLastD_cons]
    exact ih e (fun x hx => hall x (List.mem_cons_of_mem e hx)) (hall e (List.mem_cons_self _ _))

/-- `np.interp` over an all-NaN vector is NaN at every sample point. -/
theorem npInterp_nan (ys : List PF) (hall : ∀ e ∈ ys, e = PF.nan) (x : ℚ) :
    npInterp ys x = PF.nan := by
  rw [npInterp]
  split
  · rcases ys with _ | ⟨e, t⟩
    · rfl
    · exact hall e (List.mem_cons_self _ _)
  · split
    · exact getLastD_nan_of_all_nan ys PF.nan hall rfl
    · simp only [getD_nan_of_all_nan ys hall]
      exact PF.add_nan _

theorem PF.foldl_add_map_fin (l : List ℚ) (c : ℚ) :
    (l.map PF.fin).foldl PF.add (PF.fin c) = PF.fin (c + l.sum) := by
  induction l generalizing c with
  | nil => simp
  | cons a t ih =>
    simp only [List.map_cons, List.foldl_cons, List.sum_cons]
    rw [show PF.add (PF.fin c) (PF.fin a) = PF.fin (c + a) from rfl, ih]
    ring_nf

/-- The mean of a row of finite values is the finite mean. -/
theorem rowMeanPF_map_fin (l : List ℚ) (hne : l ≠ []) :
    rowMeanPF (l.map PF.fin) = PF.fin (npMean l) := by
  rw [rowMeanPF, if_neg (by simpa using hne), PF.foldl_add_map_fin, zero_add]
  have hlen : ((l.map PF.fin).length : ℚ) = (l.length : ℚ) := by simp
  rw [show PF.div (PF.fin l.sum) (PF.fin ((l.map PF.fin).length : ℚ))
      = PF.fin (l.sum / ((l.map PF.fin).length : ℚ)) from ?_, hlen]
  · rfl
  · rw [PF.div, if_neg]
    rw [hlen]
    have : 0 < l.length := List.length_pos.mpr hne
    positivity

theorem npMean_bounds (l : List ℚ) (hne : l ≠ [])
    (h0 : ∀ x ∈ l, 0 ≤ x) (h1 : ∀ x ∈ l, x ≤ 1) :
    0 ≤ npMean l ∧ npMean l ≤ 1 := by
  have hlen : (0 : ℚ) < l.length := by
    have : 0 < l.length := List.length_pos.mpr hne
    exact_mod_cast this
  constructor
  · exact div_nonneg (List.sum_nonneg h0) (le_of_lt hlen)
  · rw [npMean, div_le_one hlen]
    have := List.sum_le_card_nsmul l 1 (by simpa using h1)
    simpa using this

theorem getLastD_mem (l : List PF) (d : PF) (h : l ≠ []) : l.getLastD d ∈ l := by
  induction l generalizing d with
  | nil => exact absurd rfl h
  | cons e t ih =>
    rw [List.getLastD_cons]
    rcases eq_or_ne t [] with rfl | hne
    · simp
    · exact List.mem_cons_of_mem e (ih e hne)

/-- Linear resampling of a [0,1]-valued finite vector stays finite and
within [0,1]. -/
theorem npInterp_bounds (ys : List PF) (hne : ys ≠ [])
    (hall : ∀ e ∈ ys, ∃ q, e = PF.fin q ∧ 0 ≤ q ∧ q ≤ 1) (x : ℚ) :
    ∃ m, npInterp ys x = PF.fin m ∧ 0 ≤ m ∧ m ≤ 1 := by
  rw [npInterp]
  split
  · rcases ys with _ | ⟨e, t⟩
    · exact absurd rfl hne
    · exact hall e (List.mem_cons_self _ _)
  · split
    · exact hall _ (getLastD_mem ys PF.nan hne)
    · rename_i hx0 hx1
      rw [not_le] at hx0 hx1
      have hfl0 : (0 : ℤ) ≤ ⌊x⌋ := Int.floor_nonneg.mpr (le_of_lt hx0)
      have hcast : ((⌊x⌋.toNat : ℚ)) = ((⌊x⌋ : ℤ) : ℚ) := by
        exact_mod_cast congrArg (fun z : ℤ => (z : ℚ)) (Int.toNat_of_nonneg hfl0)
      have hfl1 : (⌊x⌋ : ℚ) < (ys.length : ℚ) - 1 :=
        lt_of_le_of_lt (Int.floor_le x) hx1
      have hilt : ⌊x⌋.toNat + 1 < ys.length := by
        have h1 : (⌊x⌋ : ℚ) < ((ys.length : ℤ) : ℚ) - 1 := by exact_mod_cast hfl1
        have h2 : ⌊x⌋ < (ys.length : ℤ) - 1 := by exact_mod_cast h1
        omega
      have hi : ⌊x⌋.toNat < ys.length := by omega
      dsimp only
      rw [List.getD_eq_getElem ys PF.nan hi, List.getD_eq_getElem ys PF.nan hilt]
      obtain ⟨a, ha, ha0, ha1⟩ := hall _ (ys.getElem_mem hi)
      obtain ⟨b, hb, hb0, hb1⟩ := hall _ (ys.getElem_mem hilt)
      rw [ha, hb]
      refine ⟨a + (b - a) * (x - (⌊x⌋.toNat : ℚ)), rfl, ?_, ?_⟩
      · have hw0 : 0 ≤ x - (⌊x⌋.toNat : ℚ) := by
          rw [hcast]
          exact sub_nonneg.mpr (Int.floor_le x)
        have hw1 : x - (⌊x⌋.toNat : ℚ) ≤ 1 := by
          rw [hcast]
          have := Int.lt_floor_add_one x
          linarith
        nlinarith
      · have hw0 : 0 ≤ x - (⌊x⌋.toNat : ℚ) := by
          rw [hcast]
          exact sub_nonneg.mpr (Int.floor_le x)
        have hw1 : x - (⌊x⌋.toNat : ℚ) ≤ 1 := by
          rw [hcast]
          have := Int.lt_floor_add_one x
          linarith
        nlinarith

theorem length_amplitude_to_db (lg : ℚ → ℚ) (S : List (List ℚ)) :
    (amplitude_to_db lg S).length = S.length := by
  simp [amplitude_to_db]

theorem mem_amplitude_to_db_ne_nil (lg : ℚ → ℚ) (S : List (List ℚ))
    (hc : ∀ row ∈ S, row ≠ []) :
    ∀ row1 ∈ amplitude_to_db lg S, row1 ≠ [] := by
  intro row1 h
  simp only [amplitude_to_db, List.mem_map] at h
  obtain ⟨r2, ⟨row, hrow, rfl⟩, rfl⟩ := h
  simpa using hc row hrow

/-- C1 (amended): for every chunk fetched from a non-empty buffer the
spectrum operation returns exactly 128 values (the 1025 natural STFT bins
are resampled down); when the decibel matrix's max exceeds its min every
value is finite and lies in [0,1]; but when max equals min (a flat window,
e.g. a silent chunk) the min-max normalisation divides by zero UNGUARDED
and every one of the 128 returned values is NaN — not the all-zero
spectrum. -/
theorem C1_spectrum_amended (stftMag : List ℚ → List (List ℚ)) (lg : ℚ → ℚ)
    (ap : AudioProcessor) (chunk : List ℚ)
    (hw : (AudioProcessor.get_waveform ap).1 = some chunk)
    (hrows : (stftMag chunk).length = 1025)
    (hcols : ∀ row ∈ stftMag chunk, row ≠ []) :
    (AudioProcessor.get_spectrumPF stftMag lg ap).1
        = some (spectrumOfChunk stftMag lg chunk)
    ∧ (spectrumOfChunk stftMag lg chunk).length = 128
    ∧ (npMin (amplitude_to_db lg (stftMag chunk)) <
          npMax (amplitude_to_db lg (stftMag chunk)) →
        ∀ e ∈ spectrumOfChunk stftMag lg chunk, ∃ q, e = PF.fin q ∧ 0 ≤ q ∧ q ≤ 1)
    ∧ (npMin (amplitude_to_db lg (stftMag chunk)) =
          npMax (amplitude_to_db lg (stftMag chunk)) →
        ∀ e ∈ spectrumOfChunk stftMag lg chunk, e = PF.nan) := by
  have hdblen : (amplitude_to_db lg (stftMag chunk)).length = 1025 := by
    rw [length_amplitude_to_db, hrows]
  have hdbcols := mem_amplitude_to_db_ne_nil lg (stftMag chunk) hcols
  have hslen : (((amplitude_to_db lg (stftMag chunk)).map
      (List.map (normEntry (npMin (amplitude_to_db lg (stftMag chunk)))
        (npMax (amplitude_to_db lg (stftMag chunk)))))).map rowMeanPF).length = 1025 := by
    simp [hdblen]
  have hunfold : spectrumOfChunk stftMag lg chunk =
      (List.range 128).map (fun i : ℕ => npInterp
        (((amplitude_to_db lg (stftMag chunk)).map
          (List.map (normEntry (npMin (amplitude_to_db lg (stftMag chunk)))
            (npMax (amplitude_to_db lg (stftMag chunk)))))).map rowMeanPF)
        (((1025 : ℕ) : ℚ) * i / 127)) := by
    rw [spectrumOfChunk]
    rw [hslen]
    rw [if_pos (by norm_num)]
  refine ⟨?_, ?_, ?_, ?_⟩
  · have hpair : AudioProcessor.get_waveform ap =
        (some chunk, (AudioProcessor.get_waveform ap).2) := Prod.ext hw rfl
    rw [AudioProcessor.get_spectrumPF, AudioProcessor.get_spectrumA, hpair]
  · rw [hunfold, List.length_map, List.length_range]
  · intro hlt e he
    rw [hunfold] at he
    simp only [List.mem_map, List.mem_range] at he
    obtain ⟨i, _, rfl⟩ := he
    apply npInterp_bounds
    · intro hnil
      rw [hnil] at hslen
      simp at hslen
    · intro e1 he1
      simp only [List.mem_map] at he1
      obtain ⟨row1, hrow1, rfl⟩ := he1
      obtain ⟨row, hrow, rfl⟩ := hrow1
      have hrne : row ≠ [] := hdbcols row hrow
      have hden : 0 < npMax (amplitude_to_db lg (stftMag chunk)) -
          npMin (amplitude_to_db lg (stftMag chunk)) := sub_pos.mpr hlt
      have hmapeq : row.map (normEntry (npMin (amplitude_to_db lg (stftMag chunk)))
          (npMax (amplitude_to_db lg (stftMag chunk)))) =
          (row.map (fun x => (x - npMin (amplitude_to_db lg (stftMag chunk))) /
            (npMax (amplitude_to_db lg (stftMag chunk)) -
             npMin (amplitude_to_db lg (stftMag chunk))))).map PF.fin := by
        rw [List.map_map]
        apply List.map_congr_left
        intro x _
        simp only [Function.comp]
        rw [normEntry, PF.div, if_neg (by linarith)]
      rw [hmapeq, rowMeanPF_map_fin _ (by simpa using hrne)]
      refine ⟨_, rfl, ?_⟩
      apply npMean_bounds _ (by simpa using hrne)
      · intro y hy
        simp only [List.mem_map] at hy
        obtain ⟨x, hx, rfl⟩ := hy
        have := npMin_le (amplitude_to_db lg (stftMag chunk)) row x hrow hx
        exact div_nonneg (by linarith) (le_of_lt hden)
      · intro y hy
        simp only [List.mem_map] at hy
        obtain ⟨x, hx, rfl⟩ := hy
        have := le_npMax (amplitude_to_db lg (stftMag chunk)) row x hrow hx
        rw [div_le_one hden]
        linarith
  · intro heq e he
    rw [hunfold] at he
    simp only [List.mem_map, List.mem_range] at he
    obtain ⟨i, _, rfl⟩ := he
    apply npInterp_nan
    intro e1 he1
    simp only [List.mem_map] at he1
    obtain ⟨row1, hrow1, rfl⟩ := he1
    obtain ⟨row, hrow, rfl⟩ := hrow1
    apply rowMeanPF_nan _ (by simpa using hdbcols row hrow)
    intro e2 he2
    simp only [List.mem_map] at he2
    obtain ⟨x, _, rfl⟩ := he2
    rw [normEntry, heq, PF.div, if_pos (by ring)]

theorem matFold_max_replicate (c : ℚ) (n : ℕ) :
    matFold max c (List.replicate n [c]) = c := by
  induction n with
  | zero => rfl
  | succ m ih =>
    rw [List.replicate_succ, matFold, List.foldl_cons]
    have h1 : List.foldl max c [c] = c := by simp
    rw [h1]
    exact ih

theorem matFold_min_replicate (c : ℚ) (n : ℕ) :
    matFold min c (List.replicate n [c]) = c := by
  induction n with
  | zero => rfl
  | succ m ih =>
    rw [List.replicate_succ, matFold, List.foldl_cons]
    have h1 : List.foldl min c [c] = c := by simp
    rw [h1]
    exact ih

theorem npMax_replicate_single (c : ℚ) (n : ℕ) (hn : n ≠ 0) :
    npMax (List.replicate n [c]) = c := by
  rcases n with _ | m
  · exact absurd rfl hn
  · rw [npMax, List.replicate_succ]
    simp only [List.headD_cons]
    exact matFold_max_replicate c (m + 1)

theorem npMin_replicate_single (c : ℚ) (n : ℕ) (hn : n ≠ 0) :
    npMin (List.replicate n [c]) = c := by
  rcases n with _ | m
  · exact absurd rfl hn
  · rw [npMin, List.replicate_succ]
    simp only [List.headD_cons]
    exact matFold_min_replicate c (m + 1)

/-- The all-zero chunk's model: `|STFT|` of the zero signal is the all-zero
1025-row magnitude matrix (the transform is linear). -/
def stftMagZ : List ℚ → List (List ℚ) := fun _ => List.replicate 1025 [0]

/-- `log10` model for the silent counterexample; the result does not depend
on its values (the dB matrix of a constant input is constant for any model
of `log10`). -/
def lgZ : ℚ → ℚ := fun _ => 0

/-- An `AudioProcessor` holding a silent (all-zero) buffer; `librosa.stft`
centre-pads short signals, so the magnitude matrix still has 1025 rows. -/
def apSilent : AudioProcessor := ⟨some [0, 0, 0, 0], 0⟩

/-- The dB matrix of the silent window is constant zero. -/
theorem amplitude_to_db_silent :
    amplitude_to_db lgZ (List.replicate 1025 [(0 : ℚ)]) =
      List.replicate 1025 [(0 : ℚ)] := by
  rw [amplitude_to_db]
  simp only [lgZ, List.map_replicate, List.map_cons, List.map_nil, mul_zero, sub_zero,
    sub_self]
  have h1 : (max ((0:ℚ) - 0) (npMax (List.replicate 1025 [(0:ℚ) - 0]) - 80)) = 0 := by
    norm_num [npMax_replicate_single (0:ℚ) 1025 (by norm_num)]
  norm_num at h1 ⊢
  rw [npMax_replicate_single (0:ℚ) 1025 (by norm_num)]
  norm_num

/-- C1 counterexample: on the silent (all-zero) chunk the dB matrix is
constant, its max equals its min, and `get_spectrum` returns 128 NaN values
— the divide-by-zero is NOT guarded and the result is not the all-zero
spectrum. -/
theorem C1_counterexample :
    (AudioProcessor.get_spectrumPF stftMagZ lgZ apSilent).1
      = some (List.replicate 128 PF.nan) := by
  have hw := AudioProcessor.get_waveform_some apSilent [0, 0, 0, 0] rfl (by norm_num [apSilent])
  norm_num [apSilent, AudioProcessor.chunk_size, AudioProcessor.hop_length] at hw
  simp only [AudioProcessor.get_spectrumPF, AudioProcessor.get_spectrumA, hw]
  refine congrArg some ?_
  rw [spectrumOfChunk]
  have hS : ∀ l : List ℚ, stftMagZ l = List.replicate 1025 [(0 : ℚ)] := fun _ => rfl
  simp only [hS]
  rw [amplitude_to_db_silent]
  rw [npMax_replicate_single (0:ℚ) 1025 (by norm_num),
    npMin_replicate_single (0:ℚ) 1025 (by norm_num)]
  have hnorm : (List.replicate 1025 [(0:ℚ)]).map (List.map (normEntry 0 0)) =
      List.replicate 1025 [PF.nan] := by
    simp only [List.map_replicate, List.map_cons, List.map_nil, -List.reduceReplicate]
    norm_num [normEntry, PF.div, -List.reduceReplicate]
  rw [hnorm]
  have hone : rowMeanPF [PF.nan] = PF.nan :=
    rowMeanPF_nan [PF.nan] (by simp) (by intro e he; simpa using he)
  have hmean : (List.replicate 1025 [PF.nan]).map rowMeanPF =
      List.replicate 1025 PF.nan := by
    simp only [List.map_replicate, -List.reduceReplicate, hone]
  rw [hmean]
  rw [if_pos (by rw [List.length_replicate]; norm_num)]
  refine (List.eq_replicate_iff.mpr ⟨by rw [List.length_map, List.length_range], ?_⟩)
  intro b hb
  simp only [List.mem_map, List.mem_range] at hb
  obtain ⟨i, _, rfl⟩ := hb
  apply npInterp_nan
  intro e he
  exact List.eq_of_mem_replicate he

/-- C1 witness: the amended spectrum contract instantiated at the silent
four-sample buffer with the zero-signal STFT model — 128 output bins. -/
theorem C1_spectrum_amended_witness :
    (stftMagZ [(0 : ℚ), 0, 0, 0]).length = 1025
    ∧ (spectrumOfChunk stftMagZ lgZ [(0 : ℚ), 0, 0, 0]).length = 128 := by
  have hw := AudioProcessor.get_waveform_some apSilent [0, 0, 0, 0] rfl (by norm_num [apSilent])
  norm_num [apSilent, AudioProcessor.chunk_size, AudioProcessor.hop_length] at hw
  have hw1 : (AudioProcessor.get_waveform apSilent).1 = some [(0 : ℚ), 0, 0, 0] := by
    simp only [apSilent]
    rw [hw]
  refine ⟨by simp only [stftMagZ, List.length_replicate], ?_⟩
  exact (C1_spectrum_amended stftMagZ lgZ apSilent [0, 0, 0, 0] hw1
    (by simp only [stftMagZ, List.length_replicate])
    (by intro row h
        have hr := List.eq_of_mem_replicate h
        subst hr
        simp)).2.1
